import Mathlib

/-!
Verification of the himetrica-react-native delivery and durability subsystem.

Shallow embedding of the offline queue (src/src/storage.ts), the transport
with its retry/flush policy (src/src/transport.ts), the error-capture
pipeline with rate limiting and deduplication (src/errors.ts), the session
store (src/src/storage.ts) and the screen tracker (src/src/client.ts).

Machine time (`Date.now()`) is passed as an explicit `now : Nat` argument;
fresh ids from `generateId` are passed as explicit arguments; the network
outcome of one send attempt is a `Bool` parameter; `AsyncStorage` results
are `Except Unit` parameters where a claim is about persistence failure.
-/

namespace Himetrica

/-- `QueuedEvent` from src/src/storage.ts (lines 9-15); the opaque JSON
payload `data` is modelled as a `String`. -/
structure QueuedEvent where
  id : String
  endpoint : String
  data : String
  timestamp : Nat
  retryCount : Nat
  deriving DecidableEq, Repr

/-- `Storage.enqueueEvent` (storage.ts lines 102-106): push onto the end of
the persisted queue. -/
def enqueueEvent (queue : List QueuedEvent) (e : QueuedEvent) : List QueuedEvent :=
  queue ++ [e]

/-- `Storage.pruneQueue` (storage.ts lines 122-127): when the queue exceeds
`maxSize`, keep the suffix `queue.slice(queue.length - maxSize)`. -/
def pruneQueue (queue : List QueuedEvent) (maxSize : Nat) : List QueuedEvent :=
  if maxSize < queue.length then queue.drop (queue.length - maxSize) else queue

/-- `Storage.removeEvent` (storage.ts lines 108-111):
`queue.filter((e) => e.id !== id)`. -/
def removeEvent (queue : List QueuedEvent) (i : String) : List QueuedEvent :=
  queue.filter (fun e => e.id ≠ i)

/-- `Storage.updateEvent` (storage.ts lines 113-120): `findIndex` on the id
then overwrite that slot; a no-op when the id is absent. -/
def updateEvent : List QueuedEvent → QueuedEvent → List QueuedEvent
  | [], _ => []
  | e :: rest, ev => if e.id = ev.id then ev :: rest else e :: updateEvent rest ev

/-- Whether some event in the queue carries the id `i`. -/
def hasId (queue : List QueuedEvent) (i : String) : Bool :=
  queue.any (fun e => e.id = i)

/-- An event with its retry counter incremented, as built inline in
`Transport.flush` (transport.ts lines 78-81). -/
def bump (e : QueuedEvent) : QueuedEvent :=
  { e with retryCount := e.retryCount + 1 }

/-- The per-event body of `Transport.flush` (transport.ts lines 73-86):
on a successful send remove the event; on failure with `retryCount < 3`
store it back with the counter incremented; otherwise remove it for good. -/
def flushStep (queue : List QueuedEvent) (e : QueuedEvent) (success : Bool) :
    List QueuedEvent :=
  if success then removeEvent queue e.id
  else if e.retryCount < 3 then updateEvent queue (bump e)
  else removeEvent queue e.id

/-- `Transport.flush`'s batch loop (transport.ts lines 71-87): the batch is
the first 50 events of the queue read at entry; each is processed by
`flushStep` with its own send outcome. The `Promise.allSettled` batch is
single-threaded and is embedded as a sequential fold over the batch. -/
def flushBatch (queue : List QueuedEvent) (outcome : QueuedEvent → Bool) :
    List QueuedEvent :=
  (queue.take 50).foldl (fun q e => flushStep q e (outcome e)) queue

/-- The transport state visible to `flush`: the re-entrancy flag
(transport.ts line 9) and the persisted queue. -/
structure TransportState where
  flushing : Bool
  queue : List QueuedEvent
  deriving Repr

/-- `Transport.flush` (transport.ts lines 63-93).  If `flushing` is set the
call returns at once (line 64) with no send attempt and no queue access;
otherwise the flag is set, the batch is processed, and the `finally` block
clears the flag.  The second component is the list of events for which a
delivery attempt was made. -/
def flush (s : TransportState) (outcome : QueuedEvent → Bool) :
    TransportState × List QueuedEvent :=
  if s.flushing then (s, [])
  else ({ flushing := false, queue := flushBatch s.queue outcome }, s.queue.take 50)

/-- `Transport.sendOrQueue` (transport.ts lines 49-61): one send attempt;
on failure enqueue a fresh event with `retryCount := 0` and prune to
`maxQueueSize`. -/
def sendOrQueue (queue : List QueuedEvent) (success : Bool) (freshId endpoint data : String)
    (now maxQueueSize : Nat) : List QueuedEvent :=
  if success then queue
  else
    pruneQueue
      (enqueueEvent queue
        { id := freshId, endpoint := endpoint, data := data,
          timestamp := now, retryCount := 0 })
      maxQueueSize

/-- The one `enqueue` operation of the spec: `enqueueEvent` followed by
`pruneQueue`, exactly as `sendOrQueue` performs it on a failed send. -/
def enqueueAndPrune (queue : List QueuedEvent) (maxSize : Nat) (e : QueuedEvent) :
    List QueuedEvent :=
  pruneQueue (enqueueEvent queue e) maxSize

/-- A whole sequence of enqueue operations, oldest first. -/
def enqueueAll (queue : List QueuedEvent) (maxSize : Nat) (es : List QueuedEvent) :
    List QueuedEvent :=
  es.foldl (fun q e => enqueueAndPrune q maxSize e) queue

/-- Sample events for concrete scenarios. -/
def evA : QueuedEvent := { id := "a", endpoint := "/api/track/event", data := "A", timestamp := 0, retryCount := 0 }

def evB : QueuedEvent := { id := "b", endpoint := "/api/track/event", data := "B", timestamp := 1, retryCount := 0 }

def evC : QueuedEvent := { id := "c", endpoint := "/api/track/event", data := "C", timestamp := 2, retryCount := 0 }

/- ### Queue lemmas -/

theorem hasId_removeEvent (q : List QueuedEvent) (i : String) :
    hasId (removeEvent q i) i = false := by
  simp only [hasId, removeEvent, List.any_eq_false]
  intro e he
  have := (List.mem_filter.mp he).2
  simp at this ⊢
  exact this

theorem updateEvent_eq_map (q : List QueuedEvent) (ev e : QueuedEvent)
    (hmem : e ∈ q) (hid : e.id = ev.id) (hnd : (q.map (fun x => x.id)).Nodup) :
    updateEvent q ev = q.map (fun x => if x.id = ev.id then ev else x) := by
  induction q with
  | nil => cases hmem
  | cons a rest ih =>
    simp only [List.map_cons, List.nodup_cons] at hnd
    by_cases ha : a.id = ev.id
    · simp only [updateEvent, ha, if_pos, List.map_cons, if_true]
      have : ∀ x ∈ rest, (if x.id = ev.id then ev else x) = x := by
        intro x hx
        have hxid : x.id ≠ a.id := by
          intro hcontra
          exact hnd.1 (hcontra ▸ List.mem_map_of_mem (fun y => y.id) hx)
        simp [ha ▸ hxid]
      rw [List.map_congr_left this]
      simp
    · have hmem' : e ∈ rest := by
        rcases List.mem_cons.mp hmem with h | h
        · exact absurd (h ▸ hid) ha
        · exact h
      simp only [updateEvent, ha, if_neg, List.map_cons, if_false]
      rw [ih hmem' hnd.2]

theorem hasId_updateEvent_false (q : List QueuedEvent) (ev : QueuedEvent) (i : String)
    (h : hasId q i = false) : hasId (updateEvent q ev) i = false := by
  induction q with
  | nil => simpa [updateEvent] using h
  | cons a rest ih =>
    simp only [hasId, List.any_cons, Bool.or_eq_false_iff] at h
    by_cases ha : a.id = ev.id
    · simp only [updateEvent, ha, if_true, hasId, List.any_cons, Bool.or_eq_false_iff]
      constructor
      · have : ev.id ≠ i := by
          intro hcontra
          have := h.1
          simp [ha ▸ hcontra] at this
        simp [this]
      · exact h.2
    · simp only [updateEvent, ha, if_false, hasId, List.any_cons, Bool.or_eq_false_iff]
      exact ⟨h.1, ih h.2⟩

theorem hasId_flushStep_false (q : List QueuedEvent) (e : QueuedEvent) (b : Bool)
    (i : String) (h : hasId q i = false) : hasId (flushStep q e b) i = false := by
  simp only [hasId, List.any_eq_false] at h
  have hmono : ∀ p : QueuedEvent → Bool, hasId (List.filter p q) i = false := by
    intro p
    simp only [hasId, List.any_eq_false]
    intro x hx
    exact h x (List.mem_filter.mp hx).1
  unfold flushStep removeEvent
  split
  · exact hmono _
  · split
    · refine hasId_updateEvent_false q (bump e) i ?_
      simp only [hasId, List.any_eq_false]
      exact h
    · exact hmono _

theorem hasId_flushBatch_false (q : List QueuedEvent) (outcome : QueuedEvent → Bool)
    (i : String) (h : hasId q i = false) : hasId (flushBatch q outcome) i = false := by
  unfold flushBatch
  have general : ∀ (batch : List QueuedEvent) (q0 : List QueuedEvent),
      hasId q0 i = false →
      hasId (batch.foldl (fun q e => flushStep q e (outcome e)) q0) i = false := by
    intro batch
    induction batch with
    | nil => intro q0 h0; simpa using h0
    | cons a rest ih =>
      intro q0 h0
      exact ih _ (hasId_flushStep_false q0 a (outcome a) i h0)
  exact general (q.take 50) q h

/- ### C1: flush retry policy -/

/-- C1: for every queued event processed by flush: a successful delivery
removes the event from the queue; a failure with `retryCount < 3` keeps it
with `retryCount` incremented by one (all other events untouched, order
preserved); a failure with `retryCount ≥ 3` removes it, and an id absent
from the queue never reappears under any further flush, so the event is
never retried again. -/
theorem flush_retry_policy (q : List QueuedEvent) (e : QueuedEvent)
    (hmem : e ∈ q) (hnd : (q.map (fun x => x.id)).Nodup) :
    hasId (flushStep q e true) e.id = false
    ∧ (e.retryCount < 3 →
        flushStep q e false = q.map (fun x => if x.id = e.id then bump x else x))
    ∧ (3 ≤ e.retryCount → hasId (flushStep q e false) e.id = false)
    ∧ (∀ i, hasId q i = false → ∀ outcome, hasId (flushBatch q outcome) i = false) := by
  refine ⟨?_, ?_, ?_, ?_⟩
  · simp only [flushStep, if_true]
    exact hasId_removeEvent q e.id
  · intro hrc
    have hb : (bump e).id = e.id := rfl
    have := updateEvent_eq_map q (bump e) e hmem hb.symm hnd
    simp only [flushStep, hrc, if_true, Bool.false_eq_true, if_false, hb] at this ⊢
    rw [this]
    refine List.map_congr_left ?_
    intro x hx
    by_cases hxe : x.id = e.id
    · have : x = e := List.inj_on_of_nodup_map hnd hx hmem hxe
      simp [hxe, this]
    · simp [hxe]
  · intro hrc
    have : ¬ e.retryCount < 3 := by omega
    simp only [flushStep, Bool.false_eq_true, if_false, this]
    exact hasId_removeEvent q e.id
  · intro i hi outcome
    exact hasId_flushBatch_false q outcome i hi

theorem flush_retry_policy_witness :
    hasId (flushStep [evA] evA true) evA.id = false
    ∧ (evA.retryCount < 3 →
        flushStep [evA] evA false = [evA].map (fun x => if x.id = evA.id then bump x else x))
    ∧ (3 ≤ evA.retryCount → hasId (flushStep [evA] evA false) evA.id = false)
    ∧ (∀ i, hasId [evA] i = false → ∀ outcome, hasId (flushBatch [evA] outcome) i = false) :=
  flush_retry_policy [evA] evA (by simp) (by simp)

/- ### C2: bounded queue -/

theorem enqueueAndPrune_eq_drop (q : List QueuedEvent) (maxSize : Nat) (e : QueuedEvent) :
    enqueueAndPrune q maxSize e = (q ++ [e]).drop ((q.length + 1) - maxSize) := by
  unfold enqueueAndPrune pruneQueue enqueueEvent
  simp only [List.length_append, List.length_singleton]
  by_cases hc : maxSize < q.length + 1
  · simp [hc]
  · have hz : (q.length + 1) - maxSize = 0 := by omega
    simp [hc, hz]

theorem enqueueAndPrune_length (q : List QueuedEvent) (maxSize : Nat) (e : QueuedEvent) :
    (enqueueAndPrune q maxSize e).length ≤ maxSize := by
  rw [enqueueAndPrune_eq_drop q maxSize e]
  simp only [List.length_drop, List.length_append, List.length_singleton]
  omega

theorem enqueueAll_eq_drop (maxSize : Nat) :
    ∀ (es q : List QueuedEvent), q.length ≤ maxSize →
      enqueueAll q maxSize es = (q ++ es).drop ((q.length + es.length) - maxSize) := by
  intro es
  induction es with
  | nil =>
    intro q hq
    have hz : q.length - maxSize = 0 := by omega
    simp [enqueueAll, hz]
  | cons e rest ih =>
    intro q hq
    have hq1 : enqueueAndPrune q maxSize e = (q ++ [e]).drop ((q.length + 1) - maxSize) :=
      enqueueAndPrune_eq_drop q maxSize e
    have hq1len : (enqueueAndPrune q maxSize e).length ≤ maxSize :=
      enqueueAndPrune_length q maxSize e
    have step : enqueueAll q maxSize (e :: rest)
        = enqueueAll (enqueueAndPrune q maxSize e) maxSize rest := rfl
    rw [step, ih _ hq1len, hq1]
    have hd : (q.length + 1) - maxSize ≤ (q ++ [e]).length := by
      simp only [List.length_append, List.length_singleton]
      omega
    rw [← List.drop_append_of_le_length hd, List.drop_drop]
    have hcat : (q ++ [e]) ++ rest = q ++ e :: rest := by simp
    rw [hcat]
    congr 1
    simp only [List.length_drop, List.length_append, List.length_singleton, List.length_cons,
      List.length_nil]
    omega

/-- C2: starting from an empty queue, any sequence of enqueue operations
(append then prune to `maxQueueSize`) leaves exactly the most recent
`maxQueueSize` enqueued items in enqueue order — the queue equals the
suffix `es.drop (es.length - maxSize)` — so its length never exceeds
`maxQueueSize`; in particular with `maxQueueSize = 2`, enqueuing A, B, C
leaves `[B, C]`. -/
theorem bounded_queue (es : List QueuedEvent) (maxSize : Nat) :
    enqueueAll [] maxSize es = es.drop (es.length - maxSize)
    ∧ (enqueueAll [] maxSize es).length ≤ maxSize
    ∧ enqueueAll [] 2 [evA, evB, evC] = [evB, evC] := by
  have h1 : enqueueAll [] maxSize es = es.drop (es.length - maxSize) := by
    have := enqueueAll_eq_drop maxSize es [] (by simp)
    simpa using this
  refine ⟨h1, ?_, ?_⟩
  · rw [h1]
    simp only [List.length_drop]
    omega
  · rfl

/- ### C3: flush re-entrancy guard -/

/-- C3: a flush call while `flushing` is set returns the state unchanged —
no queue mutation and an empty list of delivery attempts — and a flush
that does run (flag clear at entry) ends with the flag clear again, so the
returned flag always equals the entry flag and no later flush is ever
permanently blocked.  In the single-threaded execution model this guard is
what keeps two flush bodies from overlapping. -/
theorem flush_reentrancy (s : TransportState) (outcome : QueuedEvent → Bool) :
    (s.flushing = true → flush s outcome = (s, []))
    ∧ (flush s outcome).fst.flushing = s.flushing
    ∧ (s.flushing = false →
        flush s outcome
          = ({ flushing := false, queue := flushBatch s.queue outcome }, s.queue.take 50)) := by
  refine ⟨?_, ?_, ?_⟩
  · intro h
    simp [flush, h]
  · by_cases h : s.flushing
    · simp [flush, h]
    · simp [flush, h]
  · intro h
    simp [flush, h]

/- ### C6: session rotation -/

/-- The in-memory session fields of `Storage` (storage.ts lines 19-20). -/
structure SessionState where
  sessionId : String
  sessionTimestamp : Nat
  deriving DecidableEq, Repr

/-- `Storage.getSessionId` (storage.ts lines 64-78): if the elapsed time
since the last activity exceeds `sessionTimeout`, rotate to a fresh id
(the `generateId()` result is the explicit `fresh` argument, since
src/src/visitor.ts is not among the repository files; the spec says it
returns a freshly generated id) and reset the timestamp; otherwise keep
the id and refresh the timestamp to `now`. -/
def getSessionId (s : SessionState) (now sessionTimeout : Nat) (fresh : String) :
    String × SessionState :=
  if sessionTimeout < now - s.sessionTimestamp then
    (fresh, { sessionId := fresh, sessionTimestamp := now })
  else
    (s.sessionId, { sessionId := s.sessionId, sessionTimestamp := now })

/-- C6: a session touch with elapsed time strictly greater than the timeout
`T` returns the freshly generated id with the timestamp reset to `now`; a
touch with elapsed time at most `T` returns the unchanged session id with
the timestamp refreshed to `now`.  In particular a touch at `T + 1`
milliseconds of inactivity rotates and a touch at `T - 1` does not. -/
theorem session_rotation (s : SessionState) (now T : Nat) (fresh : String) :
    (T < now - s.sessionTimestamp →
      getSessionId s now T fresh = (fresh, { sessionId := fresh, sessionTimestamp := now }))
    ∧ (now - s.sessionTimestamp ≤ T →
      getSessionId s now T fresh
        = (s.sessionId, { sessionId := s.sessionId, sessionTimestamp := now }))
    ∧ (getSessionId s (s.sessionTimestamp + T + 1) T fresh).fst = fresh
    ∧ (getSessionId s (s.sessionTimestamp + T - 1) T fresh).fst = s.sessionId := by
  refine ⟨?_, ?_, ?_, ?_⟩
  · intro h
    simp [getSessionId, h]
  · intro h
    have : ¬ T < now - s.sessionTimestamp := by omega
    simp [getSessionId, this]
  · have : T < (s.sessionTimestamp + T + 1) - s.sessionTimestamp := by omega
    simp [getSessionId, this]
  · have : ¬ T < (s.sessionTimestamp + T - 1) - s.sessionTimestamp := by omega
    simp [getSessionId, this]

/- ### C7: persistence failures never escape Storage -/

/-- `Storage.getQueue` (storage.ts lines 84-92) with the fallible
collaborators explicit: `fetch` is the `AsyncStorage.getItem` result
(`.error` = rejected read) and `decode` is `JSON.parse` (`.error` =
parse throw).  The `try/catch` of the source is the outer `match`: every
failure path lands on the in-memory fallback `[]`, so the caller-visible
result is always `.ok`. -/
def getQueueWith (fetch : Except Unit (Option String))
    (decode : String → Except Unit (List QueuedEvent)) : Except Unit (List QueuedEvent) :=
  match fetch with
  | .error _ => .ok []
  | .ok none => .ok []
  | .ok (some raw) =>
    match decode raw with
    | .error _ => .ok []
    | .ok q => .ok q

/-- `Storage.saveQueue` (storage.ts lines 94-100): the write result is
swallowed by the `try/catch`; the caller always sees a resolved `.ok ()`. -/
def saveQueueWith (write : Except Unit Unit) : Except Unit Unit :=
  match write with
  | .ok _ => .ok ()
  | .error _ => .ok ()

/-- `Storage.setVisitorId` (storage.ts lines 59-62): the in-memory visitor
id becomes `i` and the fire-and-forget persistence write has its failure
dropped by `.catch(() => {})`; the in-memory value is returned to later
readers either way. -/
def setVisitorIdWith (i : String) (write : Except Unit Unit) : Except Unit String :=
  match write with
  | .ok _ => .ok i
  | .error _ => .ok i

/-- `Storage.getSessionId` (storage.ts lines 64-78) with the
fire-and-forget `AsyncStorage` write explicit: its failure is dropped by
`.catch(() => {})` and the in-memory rotation result is returned
unconditionally. -/
def getSessionIdWith (s : SessionState) (now sessionTimeout : Nat) (fresh : String)
    (write : Except Unit Unit) : Except Unit (String × SessionState) :=
  match write with
  | .ok _ => .ok (getSessionId s now sessionTimeout fresh)
  | .error _ => .ok (getSessionId s now sessionTimeout fresh)

/-- C7: no persistence failure escapes a Storage operation.  For every
outcome of the underlying key-value reads/writes and of JSON parsing,
`getQueue`, `saveQueue`, `setVisitorId` and `getSessionId` return `.ok`
— never `.error` — and on failure they degrade to the in-memory result:
`getQueue` yields `[]`, `setVisitorId` keeps the in-memory id, and
`getSessionId` yields the in-memory rotation result. -/
theorem persistence_failures_swallowed (fetch : Except Unit (Option String))
    (decode : String → Except Unit (List QueuedEvent)) (write : Except Unit Unit)
    (i : String) (s : SessionState) (now T : Nat) (fresh : String) :
    (∃ q, getQueueWith fetch decode = .ok q)
    ∧ getQueueWith (.error ()) decode = .ok []
    ∧ (∀ raw, decode raw = .error () → getQueueWith (.ok (some raw)) decode = .ok [])
    ∧ saveQueueWith write = .ok ()
    ∧ setVisitorIdWith i write = .ok i
    ∧ getSessionIdWith s now T fresh write = .ok (getSessionId s now T fresh) := by
  refine ⟨?_, ?_, ?_, ?_, ?_, ?_⟩
  · match fetch with
    | .error _ => exact ⟨[], rfl⟩
    | .ok none => exact ⟨[], rfl⟩
    | .ok (some raw) =>
      match hdec : decode raw with
      | .error _ => exact ⟨[], by simp [getQueueWith, hdec]⟩
      | .ok q => exact ⟨q, by simp [getQueueWith, hdec]⟩
  · rfl
  · intro raw hraw
    simp [getQueueWith, hraw]
  · match write with
    | .ok _ => rfl
    | .error _ => rfl
  · match write with
    | .ok _ => rfl
    | .error _ => rfl
  · match write with
    | .ok _ => rfl
    | .error _ => rfl

/- ### Error capture pipeline (src/errors.ts) -/

/-- JavaScript `| 0`: wrap an integer to signed 32-bit. -/
def toInt32 (n : Int) : Int := (n + 2 ^ 31) % 2 ^ 32 - 2 ^ 31

/-- One step of `hashString` (errors.ts lines 25-31):
`hash = ((hash << 5) + hash + str.charCodeAt(i)) | 0`, with the shift
itself wrapping to 32 bits as JavaScript `<<` does. -/
def hashStep (h : Int) (c : Nat) : Int := toInt32 (toInt32 (h * 32) + h + c)

/-- `hashString` (errors.ts lines 25-31), DJB2 over the code points of the
string starting from 5381. -/
def hashString (s : String) : Int :=
  s.toList.foldl (fun h c => hashStep h c.toNat) 5381

/-- `normalizeStack` (errors.ts lines 33-36): keep the first 20 lines. -/
def normalizeStack : Option String → Option String
  | none => none
  | some st => some (String.intercalate ("\n") ((st.splitOn ("\n")).take 20))

/-- The dedup fingerprint of `captureError` (errors.ts lines 130-131):
`hashString(message + "|" + (stack || ""))` over the normalized stack. -/
def dedupKeyOf (message : String) (stack : Option String) : Int :=
  hashString (message ++ "|" ++ (normalizeStack stack).getD "")

/-- `ErrorTracker.isRateLimited` (errors.ts lines 162-170): drop window
entries 60 seconds old or older, report `true` when 10 or more remain,
otherwise record `now` and report `false`.  Returns the flag together
with the new `errorTimestamps`. -/
def isRateLimited (now : Nat) (ts : List Nat) : Bool × List Nat :=
  let live := ts.filter (fun t => now - t < 60000)
  if 10 ≤ live.length then (true, live) else (false, live ++ [now])

/-- `ErrorTracker.isDuplicate` (errors.ts lines 172-179).  The source keeps
a `Set` of fingerprints, each deleted by its own `setTimeout` five minutes
after insertion; the embedding keeps (fingerprint, insertion time) pairs
and treats an entry as present exactly while `now - insertedAt < 300000`,
pruning fired timers on each check. -/
def isDuplicate (now : Nat) (key : Int) (entries : List (Int × Nat)) :
    Bool × List (Int × Nat) :=
  let live := entries.filter (fun p => now - p.2 < 300000)
  if live.any (fun p => p.1 = key) then (true, live) else (false, live ++ [(key, now)])

/-- The mutable rate-limit and dedup state of `ErrorTracker`
(errors.ts lines 46-47). -/
structure TrackerState where
  errorTimestamps : List Nat
  sentErrorHashes : List (Int × Nat)
  deriving DecidableEq, Repr

/-- The observable outcome of one `captureError` call: the new tracker
state and whether a delivery attempt (`transport.sendOrQueue`) was made. -/
structure CaptureOutcome where
  state : TrackerState
  delivered : Bool
  deriving DecidableEq, Repr

/-- `ErrorTracker.captureError` (errors.ts lines 121-152): no-op unless
storage is ready; compute the fingerprint; drop the capture if rate
limited (recording nothing); drop it silently if the fingerprint is a
live duplicate; otherwise hand the payload to `sendOrQueue`
(`delivered := true`). -/
def captureError (s : TrackerState) (now : Nat) (ready : Bool)
    (message : String) (stack : Option String) : CaptureOutcome :=
  if ready = false then { state := s, delivered := false }
  else
    let key := dedupKeyOf message stack
    let r := isRateLimited now s.errorTimestamps
    if r.fst then
      { state := { errorTimestamps := r.snd, sentErrorHashes := s.sentErrorHashes },
        delivered := false }
    else
      let d := isDuplicate now key s.sentErrorHashes
      { state := { errorTimestamps := r.snd, sentErrorHashes := d.snd },
        delivered := !d.fst }

/- ### Capture lemmas -/

theorem captureError_rate_limited (s : TrackerState) (now : Nat) (m : String)
    (stack : Option String) (hr : (isRateLimited now s.errorTimestamps).fst = true) :
    captureError s now true m stack
      = { state := { errorTimestamps := (isRateLimited now s.errorTimestamps).snd,
                     sentErrorHashes := s.sentErrorHashes },
          delivered := false } := by
  simp [captureError, hr]

theorem captureError_delivers (s : TrackerState) (now : Nat) (m : String)
    (stack : Option String)
    (hr : (isRateLimited now s.errorTimestamps).fst = false)
    (hd : (s.sentErrorHashes.filter (fun p => now - p.2 < 300000)).any
        (fun p => p.1 = dedupKeyOf m stack) = false) :
    captureError s now true m stack
      = { state := { errorTimestamps := (isRateLimited now s.errorTimestamps).snd,
                     sentErrorHashes :=
                       s.sentErrorHashes.filter (fun p => now - p.2 < 300000)
                         ++ [(dedupKeyOf m stack, now)] },
          delivered := true } := by
  simp [captureError, hr, isDuplicate, hd]

theorem captureError_dedups (s : TrackerState) (now : Nat) (m : String)
    (stack : Option String)
    (hr : (isRateLimited now s.errorTimestamps).fst = false)
    (hd : (s.sentErrorHashes.filter (fun p => now - p.2 < 300000)).any
        (fun p => p.1 = dedupKeyOf m stack) = true) :
    captureError s now true m stack
      = { state := { errorTimestamps := (isRateLimited now s.errorTimestamps).snd,
                     sentErrorHashes :=
                       s.sentErrorHashes.filter (fun p => now - p.2 < 300000) },
          delivered := false } := by
  simp [captureError, hr, isDuplicate, hd]

/- ### C4: rate limiting -/

/-- Ten distinct errors captured at times 0..9, filling the rate window. -/
def tenErrors : TrackerState :=
  (List.range 10).foldl
    (fun st k => (captureError st k true (toString k) none).state)
    { errorTimestamps := [], sentErrorHashes := [] }

set_option maxRecDepth 100000

/-- C4: a capture that finds 10 or more timestamps inside the trailing
60-second window is dropped — no delivery attempt, no timestamp recorded,
only expired entries pruned; a capture that finds fewer than 10 records
its timestamp.  Entries 60 seconds old or older are pruned on every
check, so once every stored timestamp has aged out the next capture is
not rate limited; concretely, after ten captures at times 0..9 an 11th
capture at time 10 is dropped while a capture at time 60000 (the oldest
entry having expired) is delivered. -/
theorem rate_limit_policy (s : TrackerState) (now : Nat) (m : String)
    (stack : Option String) :
    (10 ≤ (s.errorTimestamps.filter (fun t => now - t < 60000)).length →
      captureError s now true m stack
        = { state := { errorTimestamps := s.errorTimestamps.filter (fun t => now - t < 60000),
                       sentErrorHashes := s.sentErrorHashes },
            delivered := false })
    ∧ ((s.errorTimestamps.filter (fun t => now - t < 60000)).length < 10 →
      (captureError s now true m stack).state.errorTimestamps
        = s.errorTimestamps.filter (fun t => now - t < 60000) ++ [now])
    ∧ ((∀ t ∈ s.errorTimestamps, 60000 ≤ now - t) →
      isRateLimited now s.errorTimestamps = (false, [now]))
    ∧ (captureError tenErrors 10 true ("overflow") none).delivered = false
    ∧ (captureError tenErrors 60000 true ("overflow") none).delivered = true := by
  refine ⟨?_, ?_, ?_, by decide, by decide⟩
  · intro h
    rw [captureError_rate_limited s now m stack (by simp [isRateLimited, h])]
    simp [isRateLimited, h]
  · intro h
    have hno : ¬ 10 ≤ (s.errorTimestamps.filter (fun t => now - t < 60000)).length := by
      omega
    have hr : (isRateLimited now s.errorTimestamps).fst = false := by
      simp [isRateLimited, hno]
    by_cases hd : (s.sentErrorHashes.filter (fun p => now - p.2 < 300000)).any
        (fun p => p.1 = dedupKeyOf m stack) = true
    · rw [captureError_dedups s now m stack hr hd]
      simp [isRateLimited, hno]
    · rw [captureError_delivers s now m stack hr (by simpa using hd)]
      simp [isRateLimited, hno]
  · intro hall
    have hf : s.errorTimestamps.filter (fun t => now - t < 60000) = [] := by
      rw [List.filter_eq_nil_iff]
      intro t ht
      have := hall t ht
      simp only [decide_eq_true_eq]
      omega
    simp [isRateLimited, hf]

/- ### C5: dedup window -/

/-- The tracker state at installation: no timestamps, no fingerprints
(errors.ts lines 46-47). -/
def emptyTracker : TrackerState := { errorTimestamps := [], sentErrorHashes := [] }

/-- C5: two captures with the same message and (truncated) stack — hence
the same fingerprint — where the second comes within 5 minutes of the
first, both passing the rate limit, yield exactly one delivery attempt:
the first delivers, the second is silently rejected as a duplicate
(and does not refresh the entry).  A third identical capture at least
5 minutes after the first — the fingerprint entry having expired — is
delivered again. -/
theorem dedup_window (t1 t2 t3 : Nat) (m : String) (stack : Option String)
    (ts0 : List Nat) (hs0 : List (Int × Nat))
    (h13 : t1 ≤ t3) (hin : t2 - t1 < 300000) (hout : 300000 ≤ t3 - t1)
    (hkey : ∀ p ∈ hs0, p.1 = dedupKeyOf m stack → 300000 ≤ t1 - p.2)
    (hr1 : (isRateLimited t1 ts0).fst = false)
    (hr2 : (isRateLimited t2
        (captureError ⟨ts0, hs0⟩ t1 true m stack).state.errorTimestamps).fst = false)
    (hr3 : (isRateLimited t3
        (captureError (captureError ⟨ts0, hs0⟩ t1 true m stack).state t2 true m
          stack).state.errorTimestamps).fst = false) :
    (captureError ⟨ts0, hs0⟩ t1 true m stack).delivered = true
    ∧ (captureError (captureError ⟨ts0, hs0⟩ t1 true m stack).state t2 true m
        stack).delivered = false
    ∧ (captureError (captureError (captureError ⟨ts0, hs0⟩ t1 true m stack).state t2
        true m stack).state t3 true m stack).delivered = true := by
  have hany1 : (hs0.filter (fun p => t1 - p.2 < 300000)).any
      (fun p => p.1 = dedupKeyOf m stack) = false := by
    rw [List.any_eq_false]
    intro p hp
    rcases List.mem_filter.mp hp with ⟨hmem, halive⟩
    simp only [decide_eq_true_eq] at halive ⊢
    intro hk
    have := hkey p hmem hk
    omega
  have ho1 := captureError_delivers ⟨ts0, hs0⟩ t1 m stack hr1 hany1
  have hs1 : (captureError ⟨ts0, hs0⟩ t1 true m stack).state
      = ⟨(isRateLimited t1 ts0).snd,
          hs0.filter (fun p => t1 - p.2 < 300000) ++ [(dedupKeyOf m stack, t1)]⟩ := by
    rw [ho1]
  have hany2 : (((hs0.filter (fun p => t1 - p.2 < 300000)
        ++ [(dedupKeyOf m stack, t1)]).filter (fun p => t2 - p.2 < 300000)).any
      (fun p => p.1 = dedupKeyOf m stack)) = true := by
    rw [List.any_eq_true]
    refine ⟨(dedupKeyOf m stack, t1), ?_, by simp⟩
    rw [List.mem_filter]
    refine ⟨List.mem_append_right _ (by simp), ?_⟩
    simp only [decide_eq_true_eq]
    omega
  have ho2 := captureError_dedups ((captureError ⟨ts0, hs0⟩ t1 true m stack).state)
    t2 m stack hr2 (by rw [hs1]; exact hany2)
  have hs2 : (captureError (captureError ⟨ts0, hs0⟩ t1 true m stack).state t2 true m
      stack).state.sentErrorHashes
      = ((hs0.filter (fun p => t1 - p.2 < 300000)
          ++ [(dedupKeyOf m stack, t1)]).filter (fun p => t2 - p.2 < 300000)) := by
    rw [ho2, hs1]
  have hany3 : ((((hs0.filter (fun p => t1 - p.2 < 300000)
        ++ [(dedupKeyOf m stack, t1)]).filter (fun p => t2 - p.2 < 300000)).filter
        (fun p => t3 - p.2 < 300000)).any (fun p => p.1 = dedupKeyOf m stack)) = false := by
    rw [List.any_eq_false]
    intro p hp
    rcases List.mem_filter.mp hp with ⟨hp2, halive3⟩
    rcases List.mem_filter.mp hp2 with ⟨hpA, _⟩
    simp only [decide_eq_true_eq] at halive3 ⊢
    intro hk
    rcases List.mem_append.mp hpA with hfil | hsingle
    · rcases List.mem_filter.mp hfil with ⟨hmem0, _⟩
      have := hkey p hmem0 hk
      omega
    · have hp1 : p = (dedupKeyOf m stack, t1) := by simpa using hsingle
      have hpt : p.2 = t1 := by rw [hp1]
      omega
  have ho3 := captureError_delivers
    ((captureError (captureError ⟨ts0, hs0⟩ t1 true m stack).state t2 true m
      stack).state) t3 m stack hr3 (by rw [hs2]; exact hany3)
  refine ⟨?_, ?_, ?_⟩
  · rw [ho1]
  · rw [ho2]
  · rw [ho3]

theorem dedup_window_witness :
    (captureError emptyTracker 0 true ("boom") none).delivered = true
    ∧ (captureError (captureError emptyTracker 0 true ("boom") none).state 1 true
        ("boom") none).delivered = false
    ∧ (captureError (captureError (captureError emptyTracker 0 true ("boom")
        none).state 1 true ("boom") none).state 300000 true ("boom")
        none).delivered = true :=
  dedup_window 0 1 300000 ("boom") none [] [] (by omega) (by omega) (by omega)
    (by simp) (by decide) (by decide) (by decide)

/- ### Screen tracker (src/src/client.ts) -/

/-- A scheduled screen activation: the closure captured by the debounce
`setTimeout` in `trackScreen` (client.ts lines 80-104), together with the
chosen delay (300 ms for the first screen, 1000 ms afterwards). -/
structure PendingActivation where
  name : String
  path : String
  screenViewId : String
  delay : Nat
  deriving DecidableEq, Repr

/-- The screen-tracking fields of `HimetricaClient`
(client.ts lines 23-28).  `pendingActivation` is the single
`screenDebounceTimer` slot: scheduling a new activation replaces
(`clearTimeout` + `setTimeout`) any pending one. -/
structure ScreenState where
  currentScreenName : Option String
  currentScreenPath : Option String
  currentScreenViewId : Option String
  screenStartTime : Nat
  pendingActivation : Option PendingActivation
  isFirstScreen : Bool
  deriving DecidableEq, Repr

/-- An observable payload handed to `transport.sendOrQueue` by the screen
tracker: a screen-view activation or a screen-duration event. -/
inductive Emission where
  | screenView (screenViewId name path : String)
  | screenDuration (screenViewId : String) (duration : Nat)
  deriving DecidableEq, Repr

/-- `Math.round(ms / 1000)` for the non-negative millisecond spans of
`sendScreenDuration` (client.ts line 235). -/
def jsRound1000 (ms : Nat) : Nat := (ms + 500) / 1000

/-- `HimetricaClient.sendScreenDuration` (client.ts lines 231-252): no-op
without an active view id, a start time, or ready storage; otherwise round
the elapsed time to seconds, clamp into [1, 3600], return early when the
raw rounded duration is below 1, else emit the duration event and clear
the active view id and start time. -/
def sendScreenDuration (s : ScreenState) (now : Nat) (ready : Bool) :
    ScreenState × List Emission :=
  match s.currentScreenViewId with
  | none => (s, [])
  | some vid =>
    if s.screenStartTime = 0 then (s, [])
    else if ready = false then (s, [])
    else
      let durationSec := jsRound1000 (now - s.screenStartTime)
      let clampedDuration := max 1 (min 3600 durationSec)
      if durationSec < 1 then (s, [])
      else
        ({ s with currentScreenViewId := none, screenStartTime := 0 },
         [Emission.screenDuration vid clampedDuration])

/-- `HimetricaClient.trackScreen` (client.ts lines 59-105): no-op when
destroyed; default the path to `/name`; no-op when (name, path) equals the
currently *active* pair; otherwise emit the previous screen's duration,
then replace any pending debounce timer with a new scheduled activation
carrying a fresh screen-view id. -/
def trackScreen (s : ScreenState) (now : Nat) (name : String) (path : Option String)
    (freshId : String) (ready destroyed : Bool) : ScreenState × List Emission :=
  if destroyed then (s, [])
  else
    let effectivePath := path.getD ("/" ++ name)
    if s.currentScreenName = some name ∧ s.currentScreenPath = some effectivePath then
      (s, [])
    else
      let r := sendScreenDuration s now ready
      let delay := if r.fst.isFirstScreen then 300 else 1000
      ({ r.fst with
          pendingActivation := some ⟨name, effectivePath, freshId, delay⟩ }, r.snd)

/-- The debounce timer firing (the `setTimeout` callback of client.ts
lines 80-104): install the pending activation as the current screen with
`screenStartTime := now`, clear `isFirstScreen`, and — when storage is
ready — emit the screen-view payload. -/
def fireScreenTimer (s : ScreenState) (now : Nat) (ready : Bool) :
    ScreenState × List Emission :=
  match s.pendingActivation with
  | none => (s, [])
  | some p =>
    let s1 := { s with
      currentScreenName := some p.name,
      currentScreenPath := some p.path,
      currentScreenViewId := some p.screenViewId,
      screenStartTime := now,
      isFirstScreen := false,
      pendingActivation := none }
    if ready = false then (s1, [])
    else (s1, [Emission.screenView p.screenViewId p.name p.path])

/- ### C8: trackScreen idempotence -/

/-- Number of screen-view activation payloads in a trace. -/
def countScreenViews (l : List Emission) : Nat :=
  l.countP (fun e => match e with
    | Emission.screenView _ _ _ => true
    | Emission.screenDuration _ _ => false)

/-- Number of screen-duration payloads in a trace. -/
def countDurations (l : List Emission) : Nat :=
  l.countP (fun e => match e with
    | Emission.screenView _ _ _ => false
    | Emission.screenDuration _ _ => true)

/-- The state after `sendScreenDuration` emits: view id and start time
cleared (client.ts lines 250-251). -/
def clearView (s : ScreenState) : ScreenState :=
  { s with currentScreenViewId := none, screenStartTime := 0 }

/-- The state after `trackScreen` schedules an activation of `name` with
the default path: only the pending timer slot changes
(client.ts lines 72-80). -/
def withPending (s : ScreenState) (name freshId : String) : ScreenState :=
  { s with pendingActivation := some ⟨name, "/" ++ name, freshId,
      if s.isFirstScreen then 300 else 1000⟩ }

/-- `sendScreenDuration` either leaves the state unchanged and emits
nothing, or — only when a view id is active — emits exactly one duration
event and clears the view id and start time, so one screen's duration
can never be emitted twice. -/
theorem sendScreenDuration_spec (s : ScreenState) (now : Nat) (ready : Bool) :
    sendScreenDuration s now ready = (s, [])
    ∨ (∃ vid d, s.currentScreenViewId = some vid
        ∧ sendScreenDuration s now ready
            = (clearView s, [Emission.screenDuration vid d])) := by
  cases hcur : s.currentScreenViewId with
  | none => exact Or.inl (by simp [sendScreenDuration, hcur])
  | some v =>
    by_cases h0 : s.screenStartTime = 0
    · exact Or.inl (by simp [sendScreenDuration, hcur, h0])
    · by_cases hready : ready = false
      · exact Or.inl (by simp [sendScreenDuration, hcur, h0, hready])
      · by_cases hlt : jsRound1000 (now - s.screenStartTime) < 1
        · exact Or.inl (by simp [sendScreenDuration, hcur, h0, hready, hlt])
        · refine Or.inr ⟨v, max 1 (min 3600 (jsRound1000 (now - s.screenStartTime))),
            rfl, ?_⟩
          simp [sendScreenDuration, clearView, hcur, h0, hready, hlt]

theorem trackScreen_advances (s : ScreenState) (now : Nat) (name freshId : String)
    (s1 : ScreenState) (e1 : List Emission)
    (hnew : ¬ (s.currentScreenName = some name
        ∧ s.currentScreenPath = some ("/" ++ name)))
    (hsd : sendScreenDuration s now true = (s1, e1)) :
    trackScreen s now name none freshId true false
      = (withPending s1 name freshId, e1) := by
  simp [trackScreen, withPending, hnew, hsd]

theorem trackScreen_dedup (s : ScreenState) (now : Nat) (name freshId : String)
    (hsame : s.currentScreenName = some name
        ∧ s.currentScreenPath = some ("/" ++ name)) :
    trackScreen s now name none freshId true false = (s, []) := by
  simp [trackScreen, hsame.1, hsame.2]

theorem fireScreenTimer_fires (s : ScreenState) (now : Nat) (p : PendingActivation)
    (hp : s.pendingActivation = some p) :
    fireScreenTimer s now true
      = ({ s with
            currentScreenName := some p.name,
            currentScreenPath := some p.path,
            currentScreenViewId := some p.screenViewId,
            screenStartTime := now,
            isFirstScreen := false,
            pendingActivation := none },
         [Emission.screenView p.screenViewId p.name p.path]) := by
  simp [fireScreenTimer, hp]

theorem track_then_fire (U : ScreenState) (t2 t3 : Nat) (name id2 : String)
    (hnew : ¬ (U.currentScreenName = some name
        ∧ U.currentScreenPath = some ("/" ++ name))) :
    countScreenViews ((trackScreen U t2 name none id2 true false).snd
        ++ (fireScreenTimer (trackScreen U t2 name none id2 true false).fst t3
            true).snd) = 1
    ∧ countDurations ((trackScreen U t2 name none id2 true false).snd
        ++ (fireScreenTimer (trackScreen U t2 name none id2 true false).fst t3
            true).snd) ≤ 1
    ∧ (U.currentScreenViewId = none →
        (trackScreen U t2 name none id2 true false).snd = []
        ∧ (fireScreenTimer (trackScreen U t2 name none id2 true false).fst t3
            true).snd = [Emission.screenView id2 name ("/" ++ name)]) := by
  rcases sendScreenDuration_spec U t2 true with h2 | ⟨vid2, d2, hvid2, h2⟩
  · have hadv := trackScreen_advances U t2 name id2 U [] hnew h2
    have hfire := fireScreenTimer_fires (withPending U name id2) t3
      ⟨name, "/" ++ name, id2, if U.isFirstScreen then 300 else 1000⟩ rfl
    refine ⟨?_, ?_, ?_⟩
    · simp [hadv, hfire, countScreenViews, List.countP_append]
    · simp [hadv, hfire, countDurations, List.countP_append]
    · intro _
      exact ⟨by simp [hadv], by simp [hadv, hfire]⟩
  · have hadv := trackScreen_advances U t2 name id2 (clearView U)
      [Emission.screenDuration vid2 d2] hnew h2
    have hfire := fireScreenTimer_fires (withPending (clearView U) name id2) t3
      ⟨name, "/" ++ name, id2, if (clearView U).isFirstScreen then 300 else 1000⟩ rfl
    refine ⟨?_, ?_, ?_⟩
    · simp [hadv, hfire, countScreenViews, List.countP_append]
    · simp [hadv, hfire, countDurations, List.countP_append]
    · intro hnone
      rw [hnone] at hvid2
      cases hvid2

theorem fire_then_dedup (U : ScreenState) (t2 t3 : Nat) (name id1 id2 : String)
    (delay : Nat)
    (hp : U.pendingActivation = some ⟨name, "/" ++ name, id1, delay⟩) :
    (fireScreenTimer U t2 true).snd = [Emission.screenView id1 name ("/" ++ name)]
    ∧ (trackScreen (fireScreenTimer U t2 true).fst t3 name none id2 true
        false).snd = [] := by
  have hfire := fireScreenTimer_fires U t2 ⟨name, "/" ++ name, id1, delay⟩ hp
  constructor
  · rw [hfire]
  · rw [hfire]
    rw [trackScreen_dedup _ t3 name id2 ⟨rfl, rfl⟩]

/-- The emission trace of a `trackScreen` call, a second call with the
same (name, default path) before the debounce timer fires, then the
timer firing. -/
def doubleTrackBeforeFire (s : ScreenState) (t1 t2 t3 : Nat)
    (name id1 id2 : String) : List Emission :=
  let r1 := trackScreen s t1 name none id1 true false
  let r2 := trackScreen r1.fst t2 name none id2 true false
  let r3 := fireScreenTimer r2.fst t3 true
  r1.snd ++ r2.snd ++ r3.snd

/-- The emission trace of a `trackScreen` call, the debounce timer
firing, then a second call with the same (name, default path). -/
def doubleTrackAfterFire (s : ScreenState) (t1 t2 t3 : Nat)
    (name id1 id2 : String) : List Emission :=
  let r1 := trackScreen s t1 name none id1 true false
  let r2 := fireScreenTimer r1.fst t2 true
  let r3 := trackScreen r2.fst t3 name none id2 true false
  r1.snd ++ r2.snd ++ r3.snd

/-- C8: from any state whose active (name, path) pair differs from the
tracked one, two `trackScreen` calls in a row with the same (name,
default path) produce exactly one screen-view activation and at most one
duration event — the previous screen's, never duplicated — whether the
second call lands before the debounce timer fires (the pending
activation is replaced and the single timer fires once) or after it (the
second call is deduplicated against the now-active pair); and when no
prior screen was active the trace is exactly the one activation, with no
duration event at all. -/
theorem trackScreen_idempotent (s : ScreenState) (t1 t2 t3 : Nat)
    (name id1 id2 : String)
    (hnew : ¬ (s.currentScreenName = some name
        ∧ s.currentScreenPath = some ("/" ++ name))) :
    (countScreenViews (doubleTrackBeforeFire s t1 t2 t3 name id1 id2) = 1
      ∧ countDurations (doubleTrackBeforeFire s t1 t2 t3 name id1 id2) ≤ 1
      ∧ (s.currentScreenViewId = none →
          doubleTrackBeforeFire s t1 t2 t3 name id1 id2
            = [Emission.screenView id2 name ("/" ++ name)]))
    ∧ (countScreenViews (doubleTrackAfterFire s t1 t2 t3 name id1 id2) = 1
      ∧ countDurations (doubleTrackAfterFire s t1 t2 t3 name id1 id2) ≤ 1
      ∧ (s.currentScreenViewId = none →
          doubleTrackAfterFire s t1 t2 t3 name id1 id2
            = [Emission.screenView id1 name ("/" ++ name)])) := by
  constructor
  · -- ordering A: the second call lands before the timer fires
    rcases sendScreenDuration_spec s t1 true with h1 | ⟨vid, d, hvid, h1⟩
    · have hr1 := trackScreen_advances s t1 name id1 s [] hnew h1
      have htf := track_then_fire (withPending s name id1) t2 t3 name id2
        (by simpa [withPending] using hnew)
      have htrace : doubleTrackBeforeFire s t1 t2 t3 name id1 id2
          = (trackScreen (withPending s name id1) t2 name none id2 true false).snd
            ++ (fireScreenTimer (trackScreen (withPending s name id1) t2 name none
                id2 true false).fst t3 true).snd := by
        simp [doubleTrackBeforeFire, hr1]
      refine ⟨?_, ?_, ?_⟩
      · rw [htrace]
        exact htf.1
      · rw [htrace]
        exact htf.2.1
      · intro hnone
        obtain ⟨he2, he3⟩ := htf.2.2 (by simpa [withPending] using hnone)
        rw [htrace, he2, he3]
        simp
    · have hr1 := trackScreen_advances s t1 name id1 (clearView s)
        [Emission.screenDuration vid d] hnew h1
      have htf := track_then_fire (withPending (clearView s) name id1) t2 t3 name id2
        (by simpa [withPending, clearView] using hnew)
      obtain ⟨he2, he3⟩ := htf.2.2 rfl
      have htrace : doubleTrackBeforeFire s t1 t2 t3 name id1 id2
          = [Emission.screenDuration vid d,
             Emission.screenView id2 name ("/" ++ name)] := by
        simp [doubleTrackBeforeFire, hr1, he2, he3]
      refine ⟨?_, ?_, ?_⟩
      · rw [htrace]
        simp [countScreenViews]
      · rw [htrace]
        simp [countDurations]
      · intro hnone
        rw [hnone] at hvid
        cases hvid
  · -- ordering B: the second call lands after the timer fires
    rcases sendScreenDuration_spec s t1 true with h1 | ⟨vid, d, hvid, h1⟩
    · have hr1 := trackScreen_advances s t1 name id1 s [] hnew h1
      have hfd := fire_then_dedup (withPending s name id1) t2 t3 name id1 id2
        (if s.isFirstScreen then 300 else 1000) rfl
      have htrace : doubleTrackAfterFire s t1 t2 t3 name id1 id2
          = [Emission.screenView id1 name ("/" ++ name)] := by
        simp [doubleTrackAfterFire, hr1, hfd.1, hfd.2]
      refine ⟨?_, ?_, ?_⟩
      · rw [htrace]
        simp [countScreenViews]
      · rw [htrace]
        simp [countDurations]
      · intro _
        exact htrace
    · have hr1 := trackScreen_advances s t1 name id1 (clearView s)
        [Emission.screenDuration vid d] hnew h1
      have hfd := fire_then_dedup (withPending (clearView s) name id1) t2 t3 name
        id1 id2 (if (clearView s).isFirstScreen then 300 else 1000) rfl
      have htrace : doubleTrackAfterFire s t1 t2 t3 name id1 id2
          = [Emission.screenDuration vid d,
             Emission.screenView id1 name ("/" ++ name)] := by
        simp [doubleTrackAfterFire, hr1, hfd.1, hfd.2]
      refine ⟨?_, ?_, ?_⟩
      · rw [htrace]
        simp [countScreenViews]
      · rw [htrace]
        simp [countDurations]
      · intro hnone
        rw [hnone] at hvid
        cases hvid

/-- A fresh client screen state (client.ts lines 23-28). -/
def initialScreenState : ScreenState :=
  { currentScreenName := none, currentScreenPath := none, currentScreenViewId := none,
    screenStartTime := 0, pendingActivation := none, isFirstScreen := true }

theorem trackScreen_idempotent_witness :
    (countScreenViews (doubleTrackBeforeFire initialScreenState 0 1 2 ("Home")
        ("v1") ("v2")) = 1
      ∧ countDurations (doubleTrackBeforeFire initialScreenState 0 1 2 ("Home")
          ("v1") ("v2")) ≤ 1
      ∧ (initialScreenState.currentScreenViewId = none →
          doubleTrackBeforeFire initialScreenState 0 1 2 ("Home") ("v1") ("v2")
            = [Emission.screenView ("v2") ("Home") ("/" ++ "Home")]))
    ∧ (countScreenViews (doubleTrackAfterFire initialScreenState 0 1 2 ("Home")
        ("v1") ("v2")) = 1
      ∧ countDurations (doubleTrackAfterFire initialScreenState 0 1 2 ("Home")
          ("v1") ("v2")) ≤ 1
      ∧ (initialScreenState.currentScreenViewId = none →
          doubleTrackAfterFire initialScreenState 0 1 2 ("Home") ("v1") ("v2")
            = [Emission.screenView ("v1") ("Home") ("/" ++ "Home")])) :=
  trackScreen_idempotent initialScreenState 0 1 2 ("Home") ("v1") ("v2")
    (by simp [initialScreenState])

/- ### C9: duration clamp -/

/-- C9: every duration event `sendScreenDuration` emits carries a value in
[1, 3600]; the value is exactly the raw rounded duration clamped from
above by 3600 — the lower clamp bound is never the one applied — and when
the raw rounded duration is below 1 second nothing is emitted at all. -/
theorem duration_clamp (s : ScreenState) (now : Nat) (ready : Bool) :
    (∀ vid d, Emission.screenDuration vid d ∈ (sendScreenDuration s now ready).snd →
      1 ≤ d ∧ d ≤ 3600 ∧ d = min 3600 (jsRound1000 (now - s.screenStartTime)))
    ∧ (jsRound1000 (now - s.screenStartTime) < 1 →
      (sendScreenDuration s now ready).snd = []) := by
  constructor
  · intro vid d hmem
    unfold sendScreenDuration at hmem
    rcases hcur : s.currentScreenViewId with _ | v
    · rw [hcur] at hmem
      simp at hmem
    · rw [hcur] at hmem
      by_cases h0 : s.screenStartTime = 0
      · simp [h0] at hmem
      · by_cases hready : ready = false
        · simp [h0, hready] at hmem
        · by_cases hlt : jsRound1000 (now - s.screenStartTime) < 1
          · simp [h0, hready, hlt] at hmem
          · simp [h0, hready, hlt] at hmem
            have h1 : 1 ≤ jsRound1000 (now - s.screenStartTime) := by omega
            have hmax : max 1 (min 3600 (jsRound1000 (now - s.screenStartTime)))
                = min 3600 (jsRound1000 (now - s.screenStartTime)) := by
              have : 1 ≤ min 3600 (jsRound1000 (now - s.screenStartTime)) := by
                omega
              omega
            refine ⟨?_, ?_, ?_⟩
            · rw [hmem.2, hmax]
              omega
            · rw [hmem.2, hmax]
              omega
            · rw [hmem.2, hmax]
  · intro hlt
    unfold sendScreenDuration
    rcases hcur : s.currentScreenViewId with _ | v
    · rfl
    · by_cases h0 : s.screenStartTime = 0
      · simp [h0]
      · by_cases hready : ready = false
        · simp [h0, hready]
        · simp [h0, hready, hlt]

/- ### C10: the rate-limit check precedes the dedup check -/

/-- C10: a capture rejected by the rate limiter leaves the dedup set
untouched, so an identical error captured later — once the window has
room and no live fingerprint blocks it — is still delivered; conversely a
capture that passes the rate limiter but is rejected as a duplicate has
already recorded its timestamp, consuming a rate-limit slot. -/
theorem rate_limit_before_dedup (s : TrackerState) (t1 t2 : Nat) (m : String)
    (stack : Option String) :
    (10 ≤ (s.errorTimestamps.filter (fun t => t1 - t < 60000)).length →
      (captureError s t1 true m stack).state.sentErrorHashes = s.sentErrorHashes)
    ∧ (10 ≤ (s.errorTimestamps.filter (fun t => t1 - t < 60000)).length →
      ((captureError s t1 true m stack).state.errorTimestamps.filter
          (fun t => t2 - t < 60000)).length < 10 →
      (s.sentErrorHashes.filter (fun p => t2 - p.2 < 300000)).any
          (fun p => p.1 = dedupKeyOf m stack) = false →
      (captureError (captureError s t1 true m stack).state t2 true m
        stack).delivered = true)
    ∧ ((s.errorTimestamps.filter (fun t => t1 - t < 60000)).length < 10 →
      (s.sentErrorHashes.filter (fun p => t1 - p.2 < 300000)).any
          (fun p => p.1 = dedupKeyOf m stack) = true →
      (captureError s t1 true m stack).delivered = false
      ∧ (captureError s t1 true m stack).state.errorTimestamps
          = s.errorTimestamps.filter (fun t => t1 - t < 60000) ++ [t1]) := by
  refine ⟨?_, ?_, ?_⟩
  · intro h
    rw [captureError_rate_limited s t1 m stack (by simp [isRateLimited, h])]
  · intro h1 h2 h3
    have e1 := captureError_rate_limited s t1 m stack (by simp [isRateLimited, h1])
    have hno : ¬ 10 ≤ ((captureError s t1 true m stack).state.errorTimestamps.filter
        (fun t => t2 - t < 60000)).length := by omega
    have hr2 : (isRateLimited t2
        (captureError s t1 true m stack).state.errorTimestamps).fst = false := by
      simp [isRateLimited, hno]
    have hd2 : ((captureError s t1 true m stack).state.sentErrorHashes.filter
        (fun p => t2 - p.2 < 300000)).any (fun p => p.1 = dedupKeyOf m stack)
        = false := by
      rw [e1]
      exact h3
    rw [captureError_delivers ((captureError s t1 true m stack).state) t2 m stack
      hr2 hd2]
  · intro h1 h2
    have hno : ¬ 10 ≤ (s.errorTimestamps.filter (fun t => t1 - t < 60000)).length := by
      omega
    have hr : (isRateLimited t1 s.errorTimestamps).fst = false := by
      simp [isRateLimited, hno]
    have e := captureError_dedups s t1 m stack hr h2
    constructor
    · rw [e]
    · rw [e]
      simp [isRateLimited, hno]
